import Mathlib

/-!
Shallow embedding of the ListBuilder to-do widget (single React component in
`src/unnamed/part_000`).

The component holds `list : string[]` state (initially `[]`) and a
non-reactive `inputRef : Ref<HTMLInputElement | null>`.  `onSubmit` guards on
`inputRef.current` being non-null and then appends
`inputRef.current?.value ?? ''` to the list via a functional state update.
`render` produces a fragment with a heading, a `<ul>` of keyed `ListItem`s,
an `<input>` bound to `inputRef`, and a submit `<button>`.

The embedding models the DOM input handle as `Option InputControl`, where an
attached control's text value is itself `Option String` (to model a value
that is absent/undefined at read time, which the source's `?? ''` defaults
to the empty string).  JavaScript evaluation that could in principle throw
is modelled with `Except JsError`; optional chaining (`?.`) never throws and
is modelled accordingly.
-/

/-- An attached text-entry control.  `value` is the control's current
textual value; `none` models an absent/undefined value, which the source
defaults to `''` via `?? ''`. -/
structure InputControl where
  value : Option String
deriving DecidableEq, Repr

/-- The component's observable state: the `list` state variable from
`useState<string[]>([])` and the `inputRef.current` handle from
`useRef<HTMLInputElement>(null)` (`none` = not yet attached). -/
structure AppState where
  list : List String
  inputRef : Option InputControl
deriving DecidableEq, Repr

/-- `inputRef.current?.value ?? ''` — optional chaining through the
possibly-null handle, then nullish-coalescing to the empty string. -/
def readValue (current : Option InputControl) : String :=
  (current.bind InputControl.value).getD ""

/-- The `onSubmit` handler: if `inputRef.current` is non-null (truthy), set
the list to `[...prevState, inputRef.current?.value ?? '']`; otherwise do
nothing. -/
def onSubmit (s : AppState) : AppState :=
  if s.inputRef.isSome then
    { s with list := s.list ++ [readValue s.inputRef] }
  else
    s

/-- JavaScript runtime errors that member access could raise. -/
inductive JsError where
  | nullDeref
deriving DecidableEq, Repr

/-- `inputRef.current?.value` under JS semantics: optional chaining on a
null/undefined receiver short-circuits to `undefined` and never throws. -/
def optChainValue (current : Option InputControl) : Except JsError (Option String) :=
  match current with
  | none => Except.ok none
  | some c => Except.ok c.value

/-- `onSubmit` with each JS evaluation step made explicit in `Except`, so
that freedom from runtime errors is a provable statement rather than a
modelling assumption. -/
def onSubmitE (s : AppState) : Except JsError AppState :=
  if s.inputRef.isSome then
    match optChainValue s.inputRef with
    | Except.error e => Except.error e
    | Except.ok v => Except.ok { s with list := s.list ++ [v.getD ""] }
  else
    Except.ok s

/-- The UI tree produced by rendering (a shallow model of the JSX). -/
inductive Node where
  | h1 (title : String)
  | ul (children : List Node)
  | li (content : String)
  | inputBox (placeholder : String) (hasRef : Bool)
  | button (label : String) (hasOnClick : Bool)
  | keyed (key : Nat) (child : Node)
  | fragment (children : List Node)

/-- Props of the `ListItem` sub-component. -/
structure ListItemProps where
  value : String
deriving DecidableEq, Repr

/-- `ListItem`: renders `<li>{props.value}</li>`. -/
def ListItem (props : ListItemProps) : Node :=
  Node.li props.value

/-- The component's render output for a given `list` value: a fragment with
the heading, the `<ul>` of `list.map((value, index) => <ListItem key={index}
value={value}/>)`, the ref-bound input with its placeholder, and the submit
button. -/
def render (list : List String) : Node :=
  Node.fragment
    [ Node.h1 "To-Do List"
    , Node.ul (list.enum.map (fun vi => Node.keyed vi.1 (ListItem ⟨vi.2⟩)))
    , Node.inputBox "Enter a new item" true
    , Node.button "Submit" true ]

/-! Extraction functions used to observe the rendered tree (these read the
tree back; they are deliberately not definitionally tied to `render`). -/

/-- The displayed text of a keyed list item, if the node is one. -/
def liTextOf : Node → Option String
  | Node.keyed _ (Node.li s) => some s
  | _ => none

/-- The positional key of a keyed node, if the node is one. -/
def keyOf : Node → Option Nat
  | Node.keyed k _ => some k
  | _ => none

/-- The children of the first `<ul>` in a sequence of nodes. -/
def ulContents : List Node → List Node
  | [] => []
  | Node.ul cs :: _ => cs
  | _ :: rest => ulContents rest

/-- The children of a fragment node. -/
def fragmentChildren : Node → List Node
  | Node.fragment ns => ns
  | _ => []

/-- The texts displayed by the list section of a rendered tree, in order. -/
def renderedEntries (n : Node) : List String :=
  (ulContents (fragmentChildren n)).filterMap liTextOf

/-- The keys carried by the list section of a rendered tree, in order. -/
def renderedKeys (n : Node) : List Nat :=
  (ulContents (fragmentChildren n)).filterMap keyOf

/-! A run of submit actions, for the accumulation property. -/

/-- One submit action performed on entry list `l` with an attached control
whose current value is `v`. -/
def submitWith (l : List String) (v : String) : List String :=
  (onSubmit { list := l, inputRef := some ⟨some v⟩ }).list

/-- `N` submit actions from the initial empty list, the control holding
`v1..vN` respectively. -/
def runSubmits (vs : List String) : List String :=
  vs.foldl submitWith []

/-! Helper lemmas. -/

theorem submitWith_eq (l : List String) (v : String) :
    submitWith l v = l ++ [v] := by
  simp [submitWith, onSubmit, readValue]

theorem foldl_submitWith (vs : List String) :
    ∀ l : List String, vs.foldl submitWith l = l ++ vs := by
  induction vs with
  | nil => intro l; simp
  | cons v vs ih =>
      intro l
      simp [List.foldl_cons, submitWith_eq, ih]

theorem enumFrom_items (vs : List String) :
    ∀ k : Nat,
      ((vs.enumFrom k).map (fun vi => Node.keyed vi.1 (ListItem ⟨vi.2⟩))).filterMap liTextOf
        = vs ∧
      ((vs.enumFrom k).map (fun vi => Node.keyed vi.1 (ListItem ⟨vi.2⟩))).filterMap keyOf
        = List.range' k vs.length := by
  induction vs with
  | nil => intro k; simp [List.enumFrom]
  | cons v vs ih =>
      intro k
      obtain ⟨h1, h2⟩ := ih (k + 1)
      simp only [ListItem] at h1 h2 ⊢
      simp only [List.enumFrom, List.map_cons, List.filterMap_cons, liTextOf, keyOf]
      refine ⟨by rw [h1], ?_⟩
      rw [h2]
      rfl

theorem onSubmit_list_of_some (s : AppState) (h : s.inputRef.isSome) :
    (onSubmit s).list = s.list ++ [readValue s.inputRef] := by
  simp [onSubmit, h]

/-! Claim theorems. -/

/-- C1: with a resolvable input control whose current textual value is `v`,
`onSubmit` replaces `entries` with the previous sequence plus `v` appended
as the new last element; the previous elements are preserved unchanged in
place (the embedding is functional, so the old sequence value is never
mutated — the new sequence merely extends it). -/
theorem onSubmit_appends_fresh (s : AppState) (c : InputControl) (v : String)
    (hc : s.inputRef = some c) (hv : c.value = some v) :
    (onSubmit s).list = s.list ++ [v] ∧
    (onSubmit s).list.take s.list.length = s.list := by
  have hs : s.inputRef.isSome = true := by rw [hc]; rfl
  have hread : readValue s.inputRef = v := by
    rw [readValue, hc]
    simp [hv]
  refine ⟨?_, ?_⟩
  · rw [onSubmit_list_of_some s hs, hread]
  · rw [onSubmit_list_of_some s hs]
    simp

theorem onSubmit_appends_fresh_witness :
    (onSubmit ⟨["a"], some ⟨some "b"⟩⟩).list = ["a"] ++ ["b"] ∧
    (onSubmit ⟨["a"], some ⟨some "b"⟩⟩).list.take 1 = ["a"] :=
  onSubmit_appends_fresh ⟨["a"], some ⟨some "b"⟩⟩ ⟨some "b"⟩ "b" rfl rfl

/-- C2: when `inputRef.current` is null, `onSubmit` is a no-op — the state
(hence the entries list) is unchanged, and under the explicit JS-error
semantics no error is raised either. -/
theorem onSubmit_noop_unmounted (s : AppState) (h : s.inputRef = none) :
    onSubmit s = s ∧ onSubmitE s = Except.ok s := by
  constructor <;> simp [onSubmit, onSubmitE, h]

theorem onSubmit_noop_unmounted_witness :
    onSubmit ⟨["x"], none⟩ = ⟨["x"], none⟩ ∧
    onSubmitE ⟨["x"], none⟩ = Except.ok ⟨["x"], none⟩ :=
  onSubmit_noop_unmounted ⟨["x"], none⟩ rfl

/-- C3: performing `N` submit actions from the initial empty list, with a
resolvable control holding `v1..vN` respectively, yields exactly `v1..vN`
in that order, of length `N`. -/
theorem runSubmits_exact (vs : List String) :
    runSubmits vs = vs ∧ (runSubmits vs).length = vs.length := by
  have h : runSubmits vs = vs := by
    have := foldl_submitWith vs []
    simpa [runSubmits] using this
  exact ⟨h, by rw [h]⟩

/-- C4: invariant of the submit operation: the previous entries list is
always a prefix of the new one (nothing dropped, overwritten or reordered),
a successful submit with a resolvable handle grows the length by exactly
one, and an unresolvable handle leaves the list untouched. -/
theorem onSubmit_invariant (s : AppState) :
    (∃ t, (onSubmit s).list = s.list ++ t) ∧
    (s.inputRef.isSome = true → (onSubmit s).list.length = s.list.length + 1) ∧
    (s.inputRef.isSome = false → (onSubmit s).list = s.list) := by
  refine ⟨?_, ?_, ?_⟩
  · unfold onSubmit
    split
    · exact ⟨[readValue s.inputRef], rfl⟩
    · exact ⟨[], by simp⟩
  · intro h
    rw [onSubmit_list_of_some s h]
    simp
  · intro h
    unfold onSubmit
    simp [h]

theorem onSubmit_invariant_witness :
    (∃ t, (onSubmit ⟨["a"], some ⟨some "b"⟩⟩).list = ["a"] ++ t) ∧
    (onSubmit ⟨["a"], some ⟨some "b"⟩⟩).list.length = 2 :=
  ⟨(onSubmit_invariant ⟨["a"], some ⟨some "b"⟩⟩).1,
   (onSubmit_invariant ⟨["a"], some ⟨some "b"⟩⟩).2.1 rfl⟩

/-- C5: for every entries list, the rendered tree contains the static
heading, one keyed list item per entry in order whose key is its index and
whose displayed texts exactly mirror the entries, the ref-bound text-entry
control with placeholder "Enter a new item", and the submit button labeled
"Submit". -/
theorem render_ui (l : List String) :
    renderedEntries (render l) = l ∧
    renderedKeys (render l) = List.range l.length ∧
    Node.h1 "To-Do List" ∈ fragmentChildren (render l) ∧
    Node.inputBox "Enter a new item" true ∈ fragmentChildren (render l) ∧
    Node.button "Submit" true ∈ fragmentChildren (render l) := by
  obtain ⟨h1, h2⟩ := enumFrom_items l 0
  refine ⟨?_, ?_, ?_, ?_, ?_⟩
  · simpa [renderedEntries, render, fragmentChildren, ulContents, List.enum] using h1
  · have hr : List.range l.length = List.range' 0 l.length := List.range_eq_range' l.length
    rw [hr]
    simpa [renderedKeys, render, fragmentChildren, ulContents, List.enum] using h2
  · simp [render, fragmentChildren]
  · simp [render, fragmentChildren]
  · simp [render, fragmentChildren]

/-- C6: submitting with a resolvable control holding the empty string, or a
value that is absent/undefined (defaulted to the empty string by `?? ''`),
appends an empty-string entry and still grows the length by one — blank
input is not validated or rejected. -/
theorem onSubmit_empty_value (l : List String) :
    (onSubmit ⟨l, some ⟨some ""⟩⟩).list = l ++ [""] ∧
    (onSubmit ⟨l, some ⟨some ""⟩⟩).list.length = l.length + 1 ∧
    (onSubmit ⟨l, some ⟨none⟩⟩).list = l ++ [""] ∧
    (onSubmit ⟨l, some ⟨none⟩⟩).list.length = l.length + 1 := by
  refine ⟨?_, ?_, ?_, ?_⟩ <;> simp [onSubmit, readValue]

/-- C7: rendering is pure and idempotent — equal entries values render to
identical trees, `ListItem` depends only on its `value` prop, and it always
produces the single list-item element displaying that value verbatim. -/
theorem render_pure_idempotent (l1 l2 : List String) (p q : ListItemProps)
    (hl : l1 = l2) (hpq : p.value = q.value) :
    render l1 = render l2 ∧ ListItem p = ListItem q ∧ ListItem p = Node.li p.value := by
  subst hl
  refine ⟨rfl, ?_, rfl⟩
  simp [ListItem, hpq]

theorem render_pure_idempotent_witness :
    render ["a"] = render ["a"] ∧
    ListItem ⟨"b"⟩ = ListItem ⟨"b"⟩ ∧
    ListItem ⟨"b"⟩ = Node.li "b" :=
  render_pure_idempotent ["a"] ["a"] ⟨"b"⟩ ⟨"b"⟩ rfl rfl

/-- C8: `onSubmit` never writes to the input control — the handle and the
value it would read are unchanged; the entries list is the only state it
modifies. -/
theorem onSubmit_frame (s : AppState) :
    (onSubmit s).inputRef = s.inputRef ∧
    readValue (onSubmit s).inputRef = readValue s.inputRef := by
  have h : (onSubmit s).inputRef = s.inputRef := by
    unfold onSubmit
    split <;> rfl
  exact ⟨h, by rw [h]⟩

/-- C9: `onSubmit` is total and never raises a JS runtime error: for every
state (null handle, or attached control with any value including an absent
one), the explicit-error semantics succeeds and agrees with `onSubmit`. -/
theorem onSubmitE_never_throws (s : AppState) :
    onSubmitE s = Except.ok (onSubmit s) := by
  unfold onSubmitE onSubmit optChainValue readValue
  cases h : s.inputRef <;> simp [h]

/-- C10: `onSubmit` is deterministic in its two observable inputs: two
executions with equal previous entries lists and equal read input values
(both handles resolvable) produce equal entries lists. -/
theorem onSubmit_deterministic (s1 s2 : AppState)
    (hl : s1.list = s2.list)
    (h1 : s1.inputRef.isSome = true) (h2 : s2.inputRef.isSome = true)
    (hv : readValue s1.inputRef = readValue s2.inputRef) :
    (onSubmit s1).list = (onSubmit s2).list := by
  rw [onSubmit_list_of_some s1 h1, onSubmit_list_of_some s2 h2, hl, hv]

theorem onSubmit_deterministic_witness :
    (onSubmit ⟨["a"], some ⟨none⟩⟩).list = (onSubmit ⟨["a"], some ⟨some ""⟩⟩).list :=
  onSubmit_deterministic ⟨["a"], some ⟨none⟩⟩ ⟨["a"], some ⟨some ""⟩⟩ rfl rfl rfl rfl
